import Mathlib

/-!
Verification development for the `mcp-da-live-admin` repository.

The repository exposes DA (Document Authoring) admin operations through MCP
tools.  The interesting logic lives in:
  * `src/common/utils.js` — `parseResponseBody`, `daAdminRequest`, `formatURL`;
  * `src/operations/source.js` — `retryWithBackoff`, `createSource`,
    `uploadAsset` (upload → preview trigger → publish trigger workflow).

The JavaScript is embedded shallowly: asynchronous effectful operations become
functions from an attempt index to an `Except String` outcome, HTTP traffic
becomes an explicit environment of per-attempt fetch outcomes, and execution
traces (numbers of invocations, backoff delays slept) are recorded in explicit
trace structures.  String operations mirror JavaScript semantics
(`includes`, `startsWith`, `endsWith`, `split`, `slice(1)`) and are defined on
the character lists underlying `String`.
-/

namespace DaLive

/-! ## JavaScript-style string primitives -/

/-- `listStartsWith s pat` : does the character list `s` start with `pat`?
Mirrors JavaScript `String.prototype.startsWith` on exploded strings. -/
def listStartsWith : List Char → List Char → Bool
  | _, [] => true
  | [], _ :: _ => false
  | c :: s, p :: ps => c == p && listStartsWith s ps

/-- `listContains s pat` : does `pat` occur as a contiguous run inside `s`?
Mirrors JavaScript `String.prototype.includes`. -/
def listContains : List Char → List Char → Bool
  | [], pat => pat.isEmpty
  | c :: s, pat => listStartsWith (c :: s) pat || listContains s pat

/-- `listEndsWith s pat` : does `s` end with `pat`?  Mirrors JavaScript
`String.prototype.endsWith`. -/
def listEndsWith (s pat : List Char) : Bool :=
  listStartsWith s.reverse pat.reverse

/-- JavaScript `s.includes(pat)`. -/
def jsIncludes (s pat : String) : Bool :=
  listContains s.data pat.data

/-- JavaScript `s.startsWith(pat)`. -/
def jsStartsWith (s pat : String) : Bool :=
  listStartsWith s.data pat.data

/-- JavaScript `s.endsWith(pat)`. -/
def jsEndsWith (s pat : String) : Bool :=
  listEndsWith s.data pat.data

/-- JavaScript `s.slice(1)`: drop the first character (empty string stays
empty). -/
def jsSlice1 (s : String) : String :=
  String.mk s.data.tail

/-- JavaScript `s.split(sep)` for a single-character separator, on character
lists: always returns a non-empty list of (possibly empty) fields. -/
def splitOnChar (sep : Char) : List Char → List (List Char)
  | [] => [[]]
  | c :: rest =>
    let r := splitOnChar sep rest
    if c == sep then
      [] :: r
    else
      match r with
      | [] => [[c]]
      | h :: t => (c :: h) :: t

/-! ## `retryWithBackoff` (src/operations/source.js, lines 9–40) -/

/-- The transient-error classification of `retryWithBackoff`
(src/operations/source.js lines 19–24): the error message is retryable iff it
contains one of the five transient indicator substrings. -/
def isRetryable (msg : String) : Bool :=
  jsIncludes msg "Failed to fetch" ||
  jsIncludes msg "SSL" ||
  jsIncludes msg "TLS" ||
  jsIncludes msg "Network" ||
  jsIncludes msg "ECONNRESET"

/-- Execution trace of one `retryWithBackoff` call: how many times the wrapped
operation was invoked, which backoff delays (milliseconds) were slept between
invocations, in order, and the final outcome. -/
structure RetryTrace (α : Type) where
  attempts : Nat
  delays : List Nat
  result : Except String α

/-- Body of the `for (let attempt = 0; attempt <= maxRetries; attempt++)` loop
of `retryWithBackoff`.  The wrapped operation `fn` is modelled by the outcome
of its `i`-th invocation.  `fuel = maxRetries - attempt` counts the remaining
retries, so `fuel = 0` is exactly the JavaScript condition
`attempt === maxRetries`; the loop throws when the error is not retryable or
no retries remain, and otherwise sleeps `initialDelay * 2 ^ attempt` and
retries. -/
def retryAux (fn : Nat → Except String α) (initialDelay : Nat) :
    Nat → Nat → RetryTrace α
  | attempt, 0 =>
    match fn attempt with
    | Except.ok a => { attempts := 1, delays := [], result := Except.ok a }
    | Except.error e => { attempts := 1, delays := [], result := Except.error e }
  | attempt, fuel + 1 =>
    match fn attempt with
    | Except.ok a => { attempts := 1, delays := [], result := Except.ok a }
    | Except.error e =>
      if isRetryable e then
        let rest := retryAux fn initialDelay (attempt + 1) fuel
        { attempts := rest.attempts + 1,
          delays := initialDelay * 2 ^ attempt :: rest.delays,
          result := rest.result }
      else
        { attempts := 1, delays := [], result := Except.error e }

/-- `retryWithBackoff(fn, maxRetries, initialDelay)`
(src/operations/source.js lines 9–40), returning its execution trace. -/
def retryWithBackoff (fn : Nat → Except String α) (maxRetries initialDelay : Nat) :
    RetryTrace α :=
  retryAux fn initialDelay 0 maxRetries

/-! ## `src/common/utils.js` : `formatURL`, `parseResponseBody`, `daAdminRequest` -/

/-- Modelled from the spec: the constant `ADMIN_API_URL` is imported from
`src/common/global.js`, which is not part of the provided sources.  The spec
and the hard-coded upload URL in `uploadAsset`
(`https://admin.da.live/source/...`) identify the admin endpoint base as
`https://admin.da.live`; no property below depends on this value. -/
def ADMIN_API_URL : String := "https://admin.da.live"

/-- The leading-slash normalisation of `formatURL`
(src/common/utils.js line 55): `path.startsWith('/') ? path.slice(1) : path`. -/
def cleanLeadingSlash (path : String) : String :=
  if jsStartsWith path "/" then jsSlice1 path else path

/-- The extension normalisation of `formatURL` (src/common/utils.js lines
58–63): if `ext` is truthy (non-empty) and the path does not already end with
`.ext`, append `.ext`. -/
def addExt (cleanPath ext : String) : String :=
  if ext = "" then
    cleanPath
  else if jsEndsWith cleanPath ("." ++ ext) then
    cleanPath
  else
    cleanPath ++ "." ++ ext

/-- `formatURL(api, org, repo, path, ext)` (src/common/utils.js lines 53–66). -/
def formatURL (api org repo path ext : String) : String :=
  ADMIN_API_URL ++ "/" ++ api ++ "/" ++ org ++ "/" ++ repo ++ "/" ++
    addExt (cleanLeadingSlash path) ext

/-- JSON values, as produced by `response.json()`. -/
inductive JsonVal where
  | null : JsonVal
  | bool (b : Bool) : JsonVal
  | num (n : Int) : JsonVal
  | str (s : String) : JsonVal
  | arr (xs : List JsonVal) : JsonVal
  | obj (fields : List (String × JsonVal)) : JsonVal

/-- Escaping of one character inside a JSON string literal (the cases needed
for `JSON.stringify`: quote, backslash, newline). -/
def escapeChar (c : Char) : List Char :=
  if c = '"' then ['\\', '"']
  else if c = '\\' then ['\\', '\\']
  else if c = '\n' then ['\\', 'n']
  else [c]

/-- A JSON string literal: quoted and escaped. -/
def quoteStr (s : String) : String :=
  "\"" ++ String.mk (s.data.flatMap escapeChar) ++ "\""

mutual

/-- Compact `JSON.stringify` of a JSON value. -/
def stringify : JsonVal → String
  | JsonVal.null => "null"
  | JsonVal.bool true => "true"
  | JsonVal.bool false => "false"
  | JsonVal.num n => toString n
  | JsonVal.str s => quoteStr s
  | JsonVal.arr xs => "[" ++ stringifyArr xs ++ "]"
  | JsonVal.obj fs => "\x7b" ++ stringifyObj fs ++ "\x7d"

/-- Comma-separated `JSON.stringify` of array elements. -/
def stringifyArr : List JsonVal → String
  | [] => ""
  | [x] => stringify x
  | x :: y :: xs => stringify x ++ "," ++ stringifyArr (y :: xs)

/-- Comma-separated `JSON.stringify` of object fields. -/
def stringifyObj : List (String × JsonVal) → String
  | [] => ""
  | [(k, v)] => quoteStr k ++ ":" ++ stringify v
  | (k, v) :: f :: fs => quoteStr k ++ ":" ++ stringify v ++ "," ++ stringifyObj (f :: fs)

end

/-- An HTTP response as observed by `daAdminRequest`: the `content-type`
header (possibly absent), the `ok` flag and numeric status of `fetch`, the
result of `response.json()` (`none` models a rejected promise: empty body or
invalid JSON), and the result of `response.text()`. -/
structure Response where
  contentTypeHeader : Option String
  ok : Bool
  status : Nat
  jsonBody : Option JsonVal
  textBody : String

/-- `contentType?.includes("application/json")` (src/common/utils.js line 5):
an absent header is falsy under optional chaining. -/
def ctIsJson (r : Response) : Bool :=
  match r.contentTypeHeader with
  | some ct => jsIncludes ct "application/json"
  | none => false

/-- The body as parsed by `parseResponseBody`: either a JSON value or plain
text. -/
inductive ParsedBody where
  | json (v : JsonVal) : ParsedBody
  | text (s : String) : ParsedBody

/-- `parseResponseBody(response)` (src/common/utils.js lines 3–14): JSON
content types are parsed with `response.json()`, a parse failure (empty body
or invalid JSON) silently becoming the empty object; every other content type
is returned as text. -/
def parseResponseBody (r : Response) : ParsedBody :=
  if ctIsJson r then
    match r.jsonBody with
    | some v => ParsedBody.json v
    | none => ParsedBody.json (JsonVal.obj [])
  else
    ParsedBody.text r.textBody

/-- The `typeof responseBody === 'string' ? responseBody :
JSON.stringify(responseBody)` step of `daAdminRequest` (src/common/utils.js
line 40): a body that is a string at runtime — returned by `response.text()`
or parsed from a JSON string literal — is used as is, anything else is
stringified. -/
def bodyErrString : ParsedBody → String
  | ParsedBody.text s => s
  | ParsedBody.json (JsonVal.str s) => s
  | ParsedBody.json v => stringify v

/-- `daAdminRequest(url, options)` (src/common/utils.js lines 16–45), given
the response the transport produced for the request: parse the body, then
throw the message `status ++ ": " ++ body` when the response is not ok, and
return the parsed body otherwise. -/
def daAdminRequest (r : Response) : Except String ParsedBody :=
  let responseBody := parseResponseBody r
  if r.ok then
    Except.ok responseBody
  else
    Except.error (toString r.status ++ ": " ++ bodyErrString responseBody)

/-! ## `createSource` (src/operations/source.js, lines 105–122) -/

/-- The outbound request assembled by `createSource`: target URL, HTTP method,
and the blob placed in the `data` field of the multipart body (its MIME type
and its content). -/
structure CreateSourceRequest where
  url : String
  method : String
  blobType : String
  blobContent : String

/-- `createSource(org, repo, path, ext, content)` (src/operations/source.js
lines 105–122), up to the point where the request is handed to
`daAdminRequest`: the blob type is `text/html` when `ext === 'html'` and
`application/json` otherwise, with no validation of `ext`. -/
def createSource (org repo path ext content : String) : CreateSourceRequest :=
  { url := formatURL "source" org repo path ext
    method := "POST"
    blobType := if ext = "html" then "text/html" else "application/json"
    blobContent := content }

/-! ## `uploadAsset` (src/operations/source.js, lines 142–271) -/

/-- The outcome of one `fetch` call: either the promise rejects with an error
message (a network-level failure), or it resolves to a response with an `ok`
flag, a status code and a body text. -/
inductive FetchOutcome where
  | throw (msg : String) : FetchOutcome
  | response (ok : Bool) (status : Nat) (bodyText : String) : FetchOutcome

/-- Is the outcome a resolved HTTP response (as opposed to a rejected
promise)? -/
def FetchOutcome.isResp : FetchOutcome → Bool
  | FetchOutcome.throw _ => false
  | FetchOutcome.response _ _ _ => true

/-- The environment of one `uploadAsset` run: the outcome of
`readFileSync(localFilePath)` (the raw bytes or a thrown error message), and
the outcome of the `i`-th `fetch` to the upload, preview and publish
endpoints respectively. -/
structure UploadEnv where
  fileRead : Except String (List Nat)
  uploadResponses : Nat → FetchOutcome
  previewResponses : Nat → FetchOutcome
  publishResponses : Nat → FetchOutcome

/-- The upload callback passed to `retryWithBackoff`
(src/operations/source.js lines 173–194): a rejected `fetch` throws its error;
a non-ok response is converted into the thrown error
`'DA upload failed: ' ++ status`; an ok response succeeds. -/
def uploadStep (env : UploadEnv) (attempt : Nat) : Except String Unit :=
  match env.uploadResponses attempt with
  | FetchOutcome.throw m => Except.error m
  | FetchOutcome.response ok status _ =>
    if ok then Except.ok () else Except.error ("DA upload failed: " ++ toString status)

/-- The preview callback passed to `retryWithBackoff`
(src/operations/source.js lines 200–214): a rejected `fetch` throws its error,
but a non-ok response is only logged — the comment in the source reads
"Don't throw - preview is optional". -/
def previewStep (env : UploadEnv) (attempt : Nat) : Except String Unit :=
  match env.previewResponses attempt with
  | FetchOutcome.throw m => Except.error m
  | FetchOutcome.response _ _ _ => Except.ok ()

/-- The publish callback passed to `retryWithBackoff`
(src/operations/source.js lines 223–237): same shape as the preview callback —
"Don't throw - we can still return the URL". -/
def publishStep (env : UploadEnv) (attempt : Nat) : Except String Unit :=
  match env.publishResponses attempt with
  | FetchOutcome.throw m => Except.error m
  | FetchOutcome.response _ _ _ => Except.ok ()

/-- The fixed extension→MIME table of `uploadAsset`
(src/operations/source.js lines 155–165). -/
def mimeTypes : List (String × String) :=
  [("png", "image/png"),
   ("jpg", "image/jpeg"),
   ("jpeg", "image/jpeg"),
   ("gif", "image/gif"),
   ("webp", "image/webp"),
   ("svg", "image/svg+xml"),
   ("pdf", "application/pdf"),
   ("mp4", "video/mp4"),
   ("webm", "video/webm")]

/-- Lookup in the extension→MIME table (`mimeTypes[ext]`). -/
def lookupMime (ext : String) : Option String :=
  (mimeTypes.find? (fun p => p.1 = ext)).map Prod.snd

/-- `localFilePath.split('.').pop().toLowerCase()`
(src/operations/source.js line 154). -/
def fileExt (localFilePath : String) : String :=
  String.mk (((splitOnChar '.' localFilePath.data).getLastD []).map Char.toLower)

/-- `mimeTypes[ext] || 'application/octet-stream'`
(src/operations/source.js line 166). -/
def autoDetectMime (localFilePath : String) : String :=
  (lookupMime (fileExt localFilePath)).getD "application/octet-stream"

/-- The content-type resolution of `uploadAsset` (src/operations/source.js
lines 152–167): keep a truthy explicit `contentType` (in JavaScript the empty
string is falsy), otherwise auto-detect from the file extension. -/
def resolveMime (contentType : Option String) (localFilePath : String) : String :=
  match contentType with
  | some s => if s = "" then autoDetectMime localFilePath else s
  | none => autoDetectMime localFilePath

/-- The `catch` block of `uploadAsset` (src/operations/source.js lines
257–270): errors whose message contains `'Failed to fetch'`, `'SSL'` or
`'TLS'` are replaced by a long diagnostic message; every other error is
re-thrown as `'Failed to upload asset to DA: ' ++ message`. -/
def catchWrap (msg : String) : String :=
  if jsIncludes msg "Failed to fetch" || jsIncludes msg "SSL" || jsIncludes msg "TLS" then
    "Network error uploading to DA after multiple retries. This could be:\n- SSL/TLS issue (ERR_SSL_BAD_RECORD_MAC_ALERT)\n- Network connectivity problem\n- DA API rate limiting\n- Server connection limit\nOriginal error: " ++ msg ++ "\n\nTry again in a few moments."
  else
    "Failed to upload asset to DA: " ++ msg

/-- The result object returned by a successful `uploadAsset` run
(src/operations/source.js lines 248–255). -/
structure UploadResult where
  success : Bool
  path : String
  previewUrl : String
  liveUrl : String
  contentType : String
  size : Nat

/-- Execution trace of one `uploadAsset` run: the outcome delivered to the
caller (result object or thrown error message) and how many `fetch` calls were
made to the upload, preview and publish endpoints. -/
structure UploadTrace where
  result : Except String UploadResult
  uploadCalls : Nat
  previewCalls : Nat
  publishCalls : Nat

/-- `uploadAsset(org, repo, path, localFilePath, contentType)`
(src/operations/source.js lines 142–271): read the file, resolve the MIME
type, upload with `retryWithBackoff(..., 3, 1000)`, trigger the preview and
the publish with `retryWithBackoff(..., 2, 500)` each, and return the result
object; any error thrown along the way reaches the `catch` block and is
re-thrown through `catchWrap`.  The two settle delays (1000ms and 800ms) have
no observable effect in this model. -/
def uploadAssetTrace (org repo path localFilePath : String)
    (contentType : Option String) (env : UploadEnv) : UploadTrace :=
  match env.fileRead with
  | Except.error e =>
    { result := Except.error (catchWrap e),
      uploadCalls := 0, previewCalls := 0, publishCalls := 0 }
  | Except.ok fileBuffer =>
    let mimeType := resolveMime contentType localFilePath
    let up := retryWithBackoff (uploadStep env) 3 1000
    match up.result with
    | Except.error e =>
      { result := Except.error (catchWrap e),
        uploadCalls := up.attempts, previewCalls := 0, publishCalls := 0 }
    | Except.ok _ =>
      let pv := retryWithBackoff (previewStep env) 2 500
      match pv.result with
      | Except.error e =>
        { result := Except.error (catchWrap e),
          uploadCalls := up.attempts, previewCalls := pv.attempts, publishCalls := 0 }
      | Except.ok _ =>
        let pb := retryWithBackoff (publishStep env) 2 500
        match pb.result with
        | Except.error e =>
          { result := Except.error (catchWrap e),
            uploadCalls := up.attempts, previewCalls := pv.attempts,
            publishCalls := pb.attempts }
        | Except.ok _ =>
          { result := Except.ok
              { success := true
                path := path
                previewUrl := "https://main--" ++ repo ++ "--" ++ org ++ ".aem.page/" ++ path
                liveUrl := "https://main--" ++ repo ++ "--" ++ org ++ ".aem.live/" ++ path
                contentType := mimeType
                size := fileBuffer.length },
            uploadCalls := up.attempts, previewCalls := pv.attempts,
            publishCalls := pb.attempts }

/-- Is an `Except` outcome an error (a thrown exception)? -/
def isErr : Except String α → Bool
  | Except.error _ => true
  | Except.ok _ => false

/-! ## Concrete operations, environments and responses used in witnesses and
counterexamples -/

/-- An operation that fails on every invocation with a transient
(`'Network'`-classified) error. -/
def opNet : Nat → Except String Unit := fun _ => Except.error "Network down"

/-- An operation that fails on every invocation with a transient
(`'SSL'`-classified) error. -/
def opSSL : Nat → Except String Unit := fun _ => Except.error "SSL handshake failed"

/-- An operation that fails on every invocation with a non-transient error. -/
def opPlain : Nat → Except String Unit := fun _ => Except.error "boom"

/-- An upload environment in which the local read succeeds (3 bytes) and every
fetch resolves with an ok 200 response. -/
def envAllOk : UploadEnv :=
  { fileRead := Except.ok [10, 20, 30]
    uploadResponses := fun _ => FetchOutcome.response true 200 ""
    previewResponses := fun _ => FetchOutcome.response true 200 ""
    publishResponses := fun _ => FetchOutcome.response true 200 "" }

/-- Like `envAllOk`, except that every preview fetch rejects with the
transient error `"Network error"`. -/
def envPreviewNet : UploadEnv :=
  { envAllOk with previewResponses := fun _ => FetchOutcome.throw "Network error" }

/-- Like `envAllOk`, except that every upload fetch resolves with a non-ok
404 response. -/
def env404 : UploadEnv :=
  { envAllOk with uploadResponses := fun _ => FetchOutcome.response false 404 "Not Found" }

/-- Like `envAllOk`, except that every upload fetch rejects with the transient
error `"ECONNRESET"`. -/
def envECONN : UploadEnv :=
  { envAllOk with uploadResponses := fun _ => FetchOutcome.throw "ECONNRESET" }

/-- Like `envAllOk`, except that every upload fetch rejects with the transient
error `"SSL error"`. -/
def envSSL : UploadEnv :=
  { envAllOk with uploadResponses := fun _ => FetchOutcome.throw "SSL error" }

/-- The result object produced by uploading `a/img.png` for org `acme`, repo
`site`, from local file `./dam/img.png`, in `envAllOk`. -/
def rPng : UploadResult :=
  ⟨true, "a/img.png", "https://main--site--acme.aem.page/a/img.png",
   "https://main--site--acme.aem.live/a/img.png", "image/png", 3⟩

/-- A non-ok response with a JSON content type whose body fails to parse. -/
def respBadJson : Response :=
  ⟨some "application/json; charset=utf-8", false, 500, none, "ignored"⟩

/-! # Theorems -/

/-! ## Lemmas about `retryAux` -/

/-- If every invocation fails with a transient error, `retryAux` uses all of
its fuel: `fuel + 1` invocations, ending in the error of the last one. -/
theorem retryAux_perm_fail (fn : Nat → Except String α) (d : Nat)
    (h : ∀ i, ∃ m, fn i = Except.error m ∧ isRetryable m = true) :
    ∀ fuel a, (retryAux fn d a fuel).attempts = fuel + 1 ∧
      ∃ m, fn (a + fuel) = Except.error m ∧
        (retryAux fn d a fuel).result = Except.error m := by
  intro fuel
  induction fuel with
  | zero =>
    intro a
    obtain ⟨m, hm, _⟩ := h a
    refine ⟨by simp [retryAux, hm], m, by simpa using hm, by simp [retryAux, hm]⟩
  | succ n ih =>
    intro a
    obtain ⟨m, hm, hr⟩ := h a
    obtain ⟨ih1, m2, ihm, ihres⟩ := ih (a + 1)
    have harith : a + 1 + n = a + (n + 1) := by omega
    rw [harith] at ihm
    refine ⟨?_, m2, ihm, ?_⟩
    · simp [retryAux, hm, hr, ih1]
    · simp [retryAux, hm, hr, ihres]

/-- If the first invocation fails with a non-transient error, `retryAux`
throws it immediately after 1 invocation, whatever the fuel. -/
theorem retryAux_nonretryable (fn : Nat → Except String α) (d a fuel : Nat) (m : String)
    (hm : fn a = Except.error m) (hr : isRetryable m = false) :
    retryAux fn d a fuel = { attempts := 1, delays := [], result := Except.error m } := by
  cases fuel <;> simp [retryAux, hm, hr]

/-- `retryAux` bounds: at most `fuel + 1` invocations, at most `fuel` sleeps,
and the `i`-th sleep is `d * 2 ^ (a + i)` milliseconds. -/
theorem retryAux_backoff (fn : Nat → Except String α) (d : Nat) :
    ∀ fuel a, (retryAux fn d a fuel).attempts ≤ fuel + 1 ∧
      (retryAux fn d a fuel).delays.length ≤ fuel ∧
      ∀ i, i < (retryAux fn d a fuel).delays.length →
        (retryAux fn d a fuel).delays.getD i 0 = d * 2 ^ (a + i) := by
  intro fuel
  induction fuel with
  | zero =>
    intro a
    cases hfa : fn a <;> simp [retryAux, hfa]
  | succ n ih =>
    intro a
    cases hfa : fn a with
    | ok v =>
      refine ⟨by simp [retryAux, hfa], by simp [retryAux, hfa], ?_⟩
      intro i hi
      simp [retryAux, hfa] at hi
    | error e =>
      by_cases hr : isRetryable e
      · obtain ⟨ih1, ih2, ih3⟩ := ih (a + 1)
        refine ⟨by simp [retryAux, hfa, hr]; omega, by simp [retryAux, hfa, hr]; omega, ?_⟩
        intro i hi
        simp only [retryAux, hfa, hr, if_true] at hi ⊢
        cases i with
        | zero => simp
        | succ j =>
          simp only [List.getD_cons_succ]
          simp only [List.length_cons] at hi
          have hj : j < (retryAux fn d (a + 1) n).delays.length := by
            simpa using Nat.lt_of_succ_lt_succ hi
          have := ih3 j hj
          rw [this]
          have : a + 1 + j = a + (j + 1) := by omega
          rw [this]
      · have hrf : isRetryable e = false := by simpa using hr
        rw [retryAux_nonretryable fn d a (n + 1) e hfa hrf]
        simp

/-! ## C2 -/

/-- C2: for every `R ≥ 0`, if every invocation of the operation fails with an
error classified as transient, `retryWithBackoff` invokes the operation
exactly `R + 1` times and then propagates the last error (the error of the
invocation at 0-indexed attempt `R`); in particular `R = 0` gives exactly one
attempt. -/
theorem retryWithBackoff_transient_exhaustion (fn : Nat → Except String α) (R d : Nat)
    (h : ∀ i, ∃ m, fn i = Except.error m ∧ isRetryable m = true) :
    (retryWithBackoff fn R d).attempts = R + 1 ∧
      ∃ m, fn R = Except.error m ∧
        (retryWithBackoff fn R d).result = Except.error m := by
  have := retryAux_perm_fail fn d h R 0
  simpa [retryWithBackoff] using this

/-- C2 witness: an operation permanently failing with `"Network down"` is
invoked 3 times for `maxRetries = 2`, and exactly once for `maxRetries = 0`. -/
theorem retryWithBackoff_transient_exhaustion_witness :
    (retryWithBackoff opNet 2 100).attempts = 2 + 1 ∧
    (retryWithBackoff opNet 0 100).attempts = 0 + 1 :=
  ⟨(retryWithBackoff_transient_exhaustion opNet 2 100
      (fun _ => ⟨"Network down", rfl, by decide⟩)).1,
   (retryWithBackoff_transient_exhaustion opNet 0 100
      (fun _ => ⟨"Network down", rfl, by decide⟩)).1⟩

/-! ## C3 -/

/-- C3: for every `R ≥ 0`, an operation whose first invocation fails with an
error not classified transient is invoked exactly once, and that error is
propagated immediately, regardless of how many retries remain. -/
theorem retryWithBackoff_nonretryable_single_attempt (fn : Nat → Except String α)
    (R d : Nat) (m : String)
    (hm : fn 0 = Except.error m) (hr : isRetryable m = false) :
    (retryWithBackoff fn R d).attempts = 1 ∧
    (retryWithBackoff fn R d).result = Except.error m := by
  unfold retryWithBackoff
  rw [retryAux_nonretryable fn d 0 R m hm hr]
  exact ⟨rfl, rfl⟩

/-- C3 witness: an operation failing with the non-transient error `"boom"` is
invoked once even with 5 retries available, and `"boom"` is propagated. -/
theorem retryWithBackoff_nonretryable_single_attempt_witness :
    (retryWithBackoff opPlain 5 1000).attempts = 1 ∧
    (retryWithBackoff opPlain 5 1000).result = Except.error "boom" :=
  retryWithBackoff_nonretryable_single_attempt opPlain 5 1000 "boom" rfl (by decide)

/-! ## C4 -/

/-- C4: in `retryWithBackoff` the attempt count never exceeds `maxRetries`
(so at most `R + 1` invocations happen), the `i`-th backoff delay (the one
slept after the failure of 0-indexed attempt `i`, before attempt `i + 1`)
equals `initialDelay * 2 ^ i`, and for `initialDelay > 0` the delay sequence
is strictly increasing; delays are natural numbers, hence never negative. -/
theorem retryWithBackoff_backoff_delays (fn : Nat → Except String α) (R d : Nat) :
    (retryWithBackoff fn R d).attempts ≤ R + 1 ∧
    (∀ i, i < (retryWithBackoff fn R d).delays.length →
      (retryWithBackoff fn R d).delays.getD i 0 = d * 2 ^ i) ∧
    (0 < d → ∀ i j, i < j → j < (retryWithBackoff fn R d).delays.length →
      (retryWithBackoff fn R d).delays.getD i 0 < (retryWithBackoff fn R d).delays.getD j 0) := by
  obtain ⟨h1, h2, h3⟩ := retryAux_backoff fn d R 0
  have hform : ∀ i, i < (retryWithBackoff fn R d).delays.length →
      (retryWithBackoff fn R d).delays.getD i 0 = d * 2 ^ i := by
    intro i hi
    have := h3 i hi
    simpa [retryWithBackoff] using this
  refine ⟨h1, hform, ?_⟩
  intro hd i j hij hj
  have hi : i < (retryWithBackoff fn R d).delays.length := lt_trans hij hj
  rw [hform i hi, hform j hj]
  have hpow : (2 : Nat) ^ i < 2 ^ j := Nat.pow_lt_pow_right (by norm_num) hij
  exact mul_lt_mul_of_pos_left hpow hd

/-- C4 witness: for an operation permanently failing with an `'SSL'` error and
`maxRetries = 2`, `initialDelay = 500`, the first delay is `500 * 2 ^ 0` and
the delays strictly increase. -/
theorem retryWithBackoff_backoff_delays_witness :
    (retryWithBackoff opSSL 2 500).delays.getD 0 0 = 500 * 2 ^ 0 ∧
    (retryWithBackoff opSSL 2 500).delays.getD 0 0 <
      (retryWithBackoff opSSL 2 500).delays.getD 1 0 :=
  ⟨(retryWithBackoff_backoff_delays opSSL 2 500).2.1 0 (by decide),
   (retryWithBackoff_backoff_delays opSSL 2 500).2.2 (by decide) 0 1 (by decide) (by decide)⟩

/-! ## C1 -/

/-- C1 counterexample: in `envPreviewNet` the upload step succeeds and the
preview trigger fails transiently on every attempt; the retrying executor
makes its full 3 invocations (`maxRetries = 2` exhausted) and the failure is
NOT swallowed: the caller receives a thrown error instead of a result object
with `success: true`. -/
theorem uploadAsset_preview_exhaustion_propagates :
    (retryWithBackoff (uploadStep envPreviewNet) 3 1000).result = Except.ok () ∧
    isRetryable "Network error" = true ∧
    (retryWithBackoff (previewStep envPreviewNet) 2 500).attempts = 3 ∧
    (uploadAssetTrace "acme" "site" "a/img.png" "./dam/img.png" none envPreviewNet).result =
      Except.error "Failed to upload asset to DA: Network error" :=
  ⟨rfl, by decide, rfl, rfl⟩

/-- C1 (amended): if the upload step succeeds and every preview/publish fetch
resolves to an HTTP response (of any status — non-2xx included), those
trigger failures are swallowed and the caller receives the result object with
`success: true`; but an exception thrown by a preview or publish fetch —
including a transient error after retry exhaustion — propagates to the caller
as an error (see the counterexample). -/
theorem uploadAsset_nonfatal_trigger_responses (org repo path lf : String)
    (ct : Option String) (env : UploadEnv) (buf : List Nat)
    (hfile : env.fileRead = Except.ok buf)
    (hup : (retryWithBackoff (uploadStep env) 3 1000).result = Except.ok ())
    (hpv : ∀ i, (env.previewResponses i).isResp = true)
    (hpb : ∀ i, (env.publishResponses i).isResp = true) :
    (uploadAssetTrace org repo path lf ct env).result =
      Except.ok ⟨true, path,
        "https://main--" ++ repo ++ "--" ++ org ++ ".aem.page/" ++ path,
        "https://main--" ++ repo ++ "--" ++ org ++ ".aem.live/" ++ path,
        resolveMime ct lf, buf.length⟩ := by
  have hpv0 : previewStep env 0 = Except.ok () := by
    have h0 := hpv 0
    unfold previewStep
    cases hc : env.previewResponses 0 <;> simp [hc, FetchOutcome.isResp] at h0 ⊢
  have hpb0 : publishStep env 0 = Except.ok () := by
    have h0 := hpb 0
    unfold publishStep
    cases hc : env.publishResponses 0 <;> simp [hc, FetchOutcome.isResp] at h0 ⊢
  have hpvr : (retryWithBackoff (previewStep env) 2 500).result = Except.ok () := by
    simp [retryWithBackoff, retryAux, hpv0]
  have hpbr : (retryWithBackoff (publishStep env) 2 500).result = Except.ok () := by
    simp [retryWithBackoff, retryAux, hpb0]
  simp [uploadAssetTrace, hfile, hup, hpvr, hpbr]

/-- C1 witness: in the all-ok environment the workflow returns the full
result object with `success: true`. -/
theorem uploadAsset_nonfatal_trigger_responses_witness :
    (uploadAssetTrace "acme" "site" "a/img.png" "./dam/img.png" none envAllOk).result =
      Except.ok ⟨true, "a/img.png",
        "https://main--" ++ "site" ++ "--" ++ "acme" ++ ".aem.page/" ++ "a/img.png",
        "https://main--" ++ "site" ++ "--" ++ "acme" ++ ".aem.live/" ++ "a/img.png",
        resolveMime none "./dam/img.png", List.length [10, 20, 30]⟩ :=
  uploadAsset_nonfatal_trigger_responses "acme" "site" "a/img.png" "./dam/img.png" none
    envAllOk [10, 20, 30] rfl rfl (fun _ => rfl) (fun _ => rfl)

/-! ## C5 -/

/-- C5 counterexample: `"ECONNRESET"` is classified as a transient-network
failure by the retry classifier, yet the `catch` block of `uploadAsset` does
not wrap it into the descriptive diagnostic message — it re-throws it with
the generic `'Failed to upload asset to DA:'` message (the wrap condition
checks only `'Failed to fetch'`, `'SSL'`, `'TLS'`). -/
theorem uploadAsset_econnreset_not_diagnostic :
    isRetryable "ECONNRESET" = true ∧
    (uploadAssetTrace "acme" "site" "a.png" "./a.png" none envECONN).result =
      Except.error ("Failed to upload asset to DA: ECONNRESET") :=
  ⟨by decide, rfl⟩

/-- C5 (amended): every error reaching the `catch` block of `uploadAsset` is
re-thrown through `catchWrap`; the descriptive diagnostic wrap applies
exactly to messages containing `'Failed to fetch'`, `'SSL'` or `'TLS'` — NOT
to every transient-classified message (`'Network'` and `'ECONNRESET'` errors
are excluded) — and every other error is re-thrown with its original message
prefixed by `'Failed to upload asset to DA:'`. -/
theorem uploadAsset_error_wrapping (org repo path lf : String) (ct : Option String)
    (env : UploadEnv) (buf : List Nat) (e : String)
    (hfile : env.fileRead = Except.ok buf)
    (hup : (retryWithBackoff (uploadStep env) 3 1000).result = Except.error e) :
    (uploadAssetTrace org repo path lf ct env).result = Except.error (catchWrap e) ∧
    ((jsIncludes e "Failed to fetch" || jsIncludes e "SSL" || jsIncludes e "TLS") = true →
      catchWrap e =
        "Network error uploading to DA after multiple retries. This could be:\n- SSL/TLS issue (ERR_SSL_BAD_RECORD_MAC_ALERT)\n- Network connectivity problem\n- DA API rate limiting\n- Server connection limit\nOriginal error: " ++ e ++ "\n\nTry again in a few moments.") ∧
    ((jsIncludes e "Failed to fetch" || jsIncludes e "SSL" || jsIncludes e "TLS") = false →
      catchWrap e = "Failed to upload asset to DA: " ++ e) := by
  refine ⟨?_, ?_, ?_⟩
  · simp [uploadAssetTrace, hfile, hup]
  · intro hcond
    simp [catchWrap, hcond]
  · intro hcond
    simp [catchWrap, hcond]

/-- C5 witness: an upload exhausting its retries on `"SSL error"` yields the
diagnostic wrap; the branch facts are instantiated at `"SSL error"`. -/
theorem uploadAsset_error_wrapping_witness :
    (uploadAssetTrace "acme" "site" "a.png" "./a.png" none envSSL).result =
      Except.error (catchWrap "SSL error") ∧
    catchWrap "SSL error" =
      "Network error uploading to DA after multiple retries. This could be:\n- SSL/TLS issue (ERR_SSL_BAD_RECORD_MAC_ALERT)\n- Network connectivity problem\n- DA API rate limiting\n- Server connection limit\nOriginal error: " ++ "SSL error" ++ "\n\nTry again in a few moments." :=
  ⟨(uploadAsset_error_wrapping "acme" "site" "a.png" "./a.png" none envSSL
      [10, 20, 30] "SSL error" rfl rfl).1,
   (uploadAsset_error_wrapping "acme" "site" "a.png" "./a.png" none envSSL
      [10, 20, 30] "SSL error" rfl rfl).2.1 (by decide)⟩

/-! ## C6 -/

/-- C6: if the upload step fails fatally — the retrying executor around the
upload ends in an error, which happens for a transient error with retries
exhausted or for a non-2xx response converted into the thrown error
`'DA upload failed: ' ++ status` — then an error propagates to the caller, no
result object is returned, and the preview and publish endpoints are never
fetched. -/
theorem uploadAsset_upload_failure_aborts (org repo path lf : String)
    (ct : Option String) (env : UploadEnv) (buf : List Nat) (e : String)
    (hfile : env.fileRead = Except.ok buf)
    (hup : (retryWithBackoff (uploadStep env) 3 1000).result = Except.error e) :
    (uploadAssetTrace org repo path lf ct env).result = Except.error (catchWrap e) ∧
    (uploadAssetTrace org repo path lf ct env).previewCalls = 0 ∧
    (uploadAssetTrace org repo path lf ct env).publishCalls = 0 ∧
    (∀ i st b, env.uploadResponses i = FetchOutcome.response false st b →
      uploadStep env i = Except.error ("DA upload failed: " ++ toString st)) := by
  refine ⟨?_, ?_, ?_, ?_⟩
  · simp [uploadAssetTrace, hfile, hup]
  · simp [uploadAssetTrace, hfile, hup]
  · simp [uploadAssetTrace, hfile, hup]
  · intro i st b hresp
    simp [uploadStep, hresp]

/-- C6 witness: with every upload fetch answering 404, the upload step throws
`"DA upload failed: 404"`, the caller receives an error, and no preview or
publish fetch is ever made. -/
theorem uploadAsset_upload_failure_aborts_witness :
    (uploadAssetTrace "acme" "site" "a.png" "./a.png" none env404).result =
      Except.error (catchWrap "DA upload failed: 404") ∧
    (uploadAssetTrace "acme" "site" "a.png" "./a.png" none env404).previewCalls = 0 ∧
    (uploadAssetTrace "acme" "site" "a.png" "./a.png" none env404).publishCalls = 0 :=
  ⟨(uploadAsset_upload_failure_aborts "acme" "site" "a.png" "./a.png" none env404
      [10, 20, 30] "DA upload failed: 404" rfl rfl).1,
   (uploadAsset_upload_failure_aborts "acme" "site" "a.png" "./a.png" none env404
      [10, 20, 30] "DA upload failed: 404" rfl rfl).2.1,
   (uploadAsset_upload_failure_aborts "acme" "site" "a.png" "./a.png" none env404
      [10, 20, 30] "DA upload failed: 404" rfl rfl).2.2.1⟩

/-! ## C7 -/

/-- C7: when no `contentType` argument is supplied, a successful `uploadAsset`
run returns in its `contentType` field the value auto-detected from the local
file name's extension; the fixed table maps png, jpg/jpeg, gif, webp, svg,
pdf, mp4, webm to their documented MIME types, and any extension outside the
table resolves to `'application/octet-stream'`. -/
theorem uploadAsset_contentType_resolution (org repo path lf : String)
    (env : UploadEnv) (r : UploadResult)
    (hres : (uploadAssetTrace org repo path lf none env).result = Except.ok r) :
    r.contentType = autoDetectMime lf ∧
    lookupMime "png" = some "image/png" ∧
    lookupMime "jpg" = some "image/jpeg" ∧
    lookupMime "jpeg" = some "image/jpeg" ∧
    lookupMime "gif" = some "image/gif" ∧
    lookupMime "webp" = some "image/webp" ∧
    lookupMime "svg" = some "image/svg+xml" ∧
    lookupMime "pdf" = some "application/pdf" ∧
    lookupMime "mp4" = some "video/mp4" ∧
    lookupMime "webm" = some "video/webm" ∧
    (∀ ex : String, ex ∉ mimeTypes.map Prod.fst → lookupMime ex = none) ∧
    (∀ q : String, lookupMime (fileExt q) = none →
      autoDetectMime q = "application/octet-stream") := by
  have h1 : r.contentType = autoDetectMime lf := by
    cases hf : env.fileRead with
    | error e => simp [uploadAssetTrace, hf] at hres
    | ok buf =>
      cases hu : (retryWithBackoff (uploadStep env) 3 1000).result with
      | error e => simp [uploadAssetTrace, hf, hu] at hres
      | ok u =>
        cases hpv : (retryWithBackoff (previewStep env) 2 500).result with
        | error e => simp [uploadAssetTrace, hf, hu, hpv] at hres
        | ok v =>
          cases hpb : (retryWithBackoff (publishStep env) 2 500).result with
          | error e => simp [uploadAssetTrace, hf, hu, hpv, hpb] at hres
          | ok w =>
            simp only [uploadAssetTrace, hf, hu, hpv, hpb, Except.ok.injEq] at hres
            rw [← hres]
            simp [resolveMime]
  refine ⟨h1, rfl, rfl, rfl, rfl, rfl, rfl, rfl, rfl, rfl, ?_, ?_⟩
  · intro ex hex
    unfold lookupMime
    rw [List.find?_eq_none.mpr]
    · rfl
    · intro x hx hpx
      apply hex
      have hx1 : x.1 = ex := by simpa using hpx
      rw [← hx1]
      exact List.mem_map_of_mem Prod.fst hx
  · intro q hq
    unfold autoDetectMime
    rw [hq]
    rfl

/-- C7 witness: in the all-ok environment with local file `./dam/img.png` and
no explicit content type, the result's `contentType` is the auto-detected
`image/png`, and an extension outside the table resolves to none. -/
theorem uploadAsset_contentType_resolution_witness :
    rPng.contentType = autoDetectMime "./dam/img.png" ∧
    lookupMime "zzz" = none :=
  ⟨(uploadAsset_contentType_resolution "acme" "site" "a/img.png" "./dam/img.png"
      envAllOk rPng rfl).1,
   (uploadAsset_contentType_resolution "acme" "site" "a/img.png" "./dam/img.png"
      envAllOk rPng rfl).2.2.2.2.2.2.2.2.2.2.1 "zzz" (by decide)⟩

/-! ## C8 -/

/-- C8: when the response's content-type header includes `application/json`
but `response.json()` fails (empty body or invalid JSON), the parsed result is
silently the empty object; when the content type does not include
`application/json`, the body is returned as text; and `daAdminRequest` throws
exactly when the response is non-ok, with the message composed of the status
code and the parsed body. -/
theorem daAdminRequest_parsing_and_throw (r : Response) :
    (ctIsJson r = true → r.jsonBody = none →
      parseResponseBody r = ParsedBody.json (JsonVal.obj [])) ∧
    (ctIsJson r = false → parseResponseBody r = ParsedBody.text r.textBody) ∧
    (isErr (daAdminRequest r) = true ↔ r.ok = false) ∧
    (r.ok = false → daAdminRequest r =
      Except.error (toString r.status ++ ": " ++ bodyErrString (parseResponseBody r))) := by
  refine ⟨?_, ?_, ?_, ?_⟩
  · intro h1 h2
    simp [parseResponseBody, h1, h2]
  · intro h1
    simp [parseResponseBody, h1]
  · unfold daAdminRequest
    cases hok : r.ok <;> simp [hok, isErr]
  · intro h1
    simp [daAdminRequest, h1]

/-- C8 witness: a non-ok 500 response with JSON content type and an
unparsable body parses to the empty object and throws the composed message. -/
theorem daAdminRequest_parsing_and_throw_witness :
    parseResponseBody respBadJson = ParsedBody.json (JsonVal.obj []) ∧
    daAdminRequest respBadJson =
      Except.error (toString respBadJson.status ++ ": " ++
        bodyErrString (parseResponseBody respBadJson)) :=
  ⟨(daAdminRequest_parsing_and_throw respBadJson).1 (by decide) rfl,
   (daAdminRequest_parsing_and_throw respBadJson).2.2.2 rfl⟩

/-! ## C10 -/

/-- C10: in `createSource` the blob's MIME type is `text/html` exactly when
`ext = 'html'`, and `application/json` for every other `ext` value — also for
values outside the documented set of `html` and `json` — with no validation
or error for unexpected extensions. -/
theorem createSource_blobType (org repo path ext content : String) :
    ((createSource org repo path ext content).blobType = "text/html" ↔ ext = "html") ∧
    (ext ≠ "html" →
      (createSource org repo path ext content).blobType = "application/json") := by
  unfold createSource
  by_cases h : ext = "html" <;>
    simp [h, (by decide : ("application/json" : String) ≠ "text/html")]

/-- C10 witness: the undocumented extension `xml` is accepted and yields the
`application/json` blob type. -/
theorem createSource_blobType_witness :
    (createSource "acme" "site" "p" "xml" "c").blobType = "application/json" :=
  (createSource_blobType "acme" "site" "p" "xml" "c").2 (by decide)

/-! ## Lemmas about the string primitives, towards C9 -/

/-- Every list starts with the empty pattern. -/
theorem listStartsWith_nil_pat (s : List Char) : listStartsWith s [] = true := by
  cases s <;> rfl

/-- Extending the subject on the right preserves `listStartsWith`. -/
theorem listStartsWith_append (s t p : List Char) (h : listStartsWith s p = true) :
    listStartsWith (s ++ t) p = true := by
  induction p generalizing s with
  | nil => exact listStartsWith_nil_pat _
  | cons c cs ih =>
    cases s with
    | nil => simp [listStartsWith] at h
    | cons a as =>
      simp only [List.cons_append]
      simp only [listStartsWith, Bool.and_eq_true] at h ⊢
      exact ⟨h.1, ih as h.2⟩

/-- A list starts with itself, whatever follows. -/
theorem listStartsWith_self_append (p t : List Char) : listStartsWith (p ++ t) p = true := by
  induction p with
  | nil => exact listStartsWith_nil_pat _
  | cons c cs ih =>
    simp only [List.cons_append, listStartsWith, Bool.and_eq_true]
    exact ⟨by simp, ih⟩

/-- Extending the subject on the left preserves `listEndsWith`. -/
theorem listEndsWith_append_left (a b p : List Char) (h : listEndsWith b p = true) :
    listEndsWith (a ++ b) p = true := by
  unfold listEndsWith at h ⊢
  rw [List.reverse_append]
  exact listStartsWith_append _ _ _ h

/-- A list ends with its own suffix. -/
theorem listEndsWith_self (x p : List Char) : listEndsWith (x ++ p) p = true := by
  unfold listEndsWith
  rw [List.reverse_append]
  exact listStartsWith_self_append _ _

/-- If a list does not end with `p`, neither does its tail. -/
theorem listEndsWith_tail_false (c : Char) (s p : List Char)
    (h : listEndsWith (c :: s) p = false) : listEndsWith s p = false := by
  cases hE : listEndsWith s p with
  | false => rfl
  | true =>
    have hw : listEndsWith ([c] ++ s) p = true := listEndsWith_append_left [c] s p hE
    simp only [List.singleton_append] at hw
    rw [h] at hw
    simp at hw

/-- Extending the subject on the left preserves `jsEndsWith`. -/
theorem jsEndsWith_append_left (a b p : String) (h : jsEndsWith b p = true) :
    jsEndsWith (a ++ b) p = true := by
  unfold jsEndsWith at h ⊢
  rw [String.data_append]
  exact listEndsWith_append_left _ _ _ h

/-- A string ends with its own suffix. -/
theorem jsEndsWith_self (x p : String) : jsEndsWith (x ++ p) p = true := by
  unfold jsEndsWith
  rw [String.data_append]
  exact listEndsWith_self _ _

/-- `cleanLeadingSlash` on a string with first character `c`. -/
theorem cleanLeadingSlash_cons (c : Char) (t : List Char) (p : String)
    (hd : p.data = c :: t) :
    cleanLeadingSlash p = if c = '/' then String.mk t else p := by
  unfold cleanLeadingSlash jsStartsWith jsSlice1
  rw [hd]
  show (if (listStartsWith (c :: t) ['/'] : Bool) then String.mk (c :: t).tail else p) = _
  simp only [listStartsWith, listStartsWith_nil_pat, Bool.and_true, List.tail_cons]
  by_cases hc : c = '/' <;> simp [hc]

/-- `cleanLeadingSlash` on the empty string. -/
theorem cleanLeadingSlash_nil (p : String) (hd : p.data = []) : cleanLeadingSlash p = p := by
  unfold cleanLeadingSlash jsStartsWith
  rw [hd]
  simp [listStartsWith]

/-- Exactly one leading slash is stripped. -/
theorem cleanLeadingSlash_strip (q : String) : cleanLeadingSlash ("/" ++ q) = q := by
  have hd : ("/" ++ q).data = '/' :: q.data := by
    rw [String.data_append]; rfl
  rw [cleanLeadingSlash_cons '/' q.data _ hd, if_pos rfl]

/-- `cleanLeadingSlash` commutes with appending a suffix that does not start
with a slash. -/
theorem cleanLeadingSlash_append (p s : String) (hs : jsStartsWith s "/" = false) :
    cleanLeadingSlash (p ++ s) = cleanLeadingSlash p ++ s := by
  cases hd : p.data with
  | nil =>
    have hps : (p ++ s).data = s.data := by rw [String.data_append, hd]; rfl
    rw [cleanLeadingSlash_nil p hd]
    unfold cleanLeadingSlash jsStartsWith
    unfold jsStartsWith at hs
    rw [hps, hs]
    simp
  | cons c cs =>
    have hps : (p ++ s).data = c :: (cs ++ s.data) := by rw [String.data_append, hd]; rfl
    rw [cleanLeadingSlash_cons c (cs ++ s.data) _ hps, cleanLeadingSlash_cons c cs p hd]
    by_cases hc : c = '/'
    · rw [if_pos hc, if_pos hc]
      rfl
    · rw [if_neg hc, if_neg hc]

/-- If a string does not end with `e`, its slash-stripped form does not
either. -/
theorem cleanLeadingSlash_endsWith_false (p e : String)
    (h : jsEndsWith p e = false) : jsEndsWith (cleanLeadingSlash p) e = false := by
  cases hd : p.data with
  | nil => rw [cleanLeadingSlash_nil p hd]; exact h
  | cons c cs =>
    rw [cleanLeadingSlash_cons c cs p hd]
    by_cases hc : c = '/'
    · rw [if_pos hc]
      unfold jsEndsWith at h ⊢
      rw [hd] at h
      exact listEndsWith_tail_false c cs e.data h
    · rw [if_neg hc]
      exact h

/-! ## C9 -/

/-- C9: for non-empty `ext`, `formatURL` always produces a URL ending in
`.ext`; it strips exactly one leading `/` from the path; and it is idempotent
in the extension: a path not already ending in `.ext` yields the same URL as
the same path with `.ext` appended. -/
theorem formatURL_extension_normalisation (api org repo p ext : String)
    (hext : ext ≠ "") (hp : jsEndsWith p ("." ++ ext) = false) :
    (∀ q : String, jsEndsWith (formatURL api org repo q ext) ("." ++ ext) = true) ∧
    (∀ q : String, cleanLeadingSlash ("/" ++ q) = q) ∧
    formatURL api org repo p ext = formatURL api org repo (p ++ "." ++ ext) ext := by
  have haddExt : ∀ q : String, jsEndsWith (addExt q ext) ("." ++ ext) = true := by
    intro q
    unfold addExt
    rw [if_neg hext]
    by_cases he : jsEndsWith q ("." ++ ext) = true
    · rw [if_pos he]
      exact he
    · rw [if_neg he, String.append_assoc]
      exact jsEndsWith_self q ("." ++ ext)
  refine ⟨?_, cleanLeadingSlash_strip, ?_⟩
  · intro q
    unfold formatURL
    exact jsEndsWith_append_left _ _ _ (haddExt (cleanLeadingSlash q))
  · unfold formatURL
    congr 1
    have hdot : jsStartsWith ("." ++ ext) "/" = false := by
      unfold jsStartsWith
      rw [String.data_append]
      show listStartsWith ('.' :: ext.data) ['/'] = false
      simp only [listStartsWith, listStartsWith_nil_pat, Bool.and_true]
      rfl
    rw [String.append_assoc, cleanLeadingSlash_append p ("." ++ ext) hdot]
    have hcp : jsEndsWith (cleanLeadingSlash p) ("." ++ ext) = false :=
      cleanLeadingSlash_endsWith_false p ("." ++ ext) hp
    unfold addExt
    rw [if_neg hext, if_neg hext,
      if_neg (by simp [hcp]),
      if_pos (jsEndsWith_self (cleanLeadingSlash p) ("." ++ ext)),
      String.append_assoc]

/-- C9 witness: for org/repo/path `acme/site/docs/page` and extension `html`,
adding the extension first changes nothing, and a slash-prefixed path still
yields a URL ending in `.html`. -/
theorem formatURL_extension_normalisation_witness :
    formatURL "source" "acme" "site" "docs/page" "html" =
      formatURL "source" "acme" "site" ("docs/page" ++ "." ++ "html") "html" ∧
    jsEndsWith (formatURL "source" "acme" "site" "/docs/page" "html") ("." ++ "html") = true :=
  ⟨(formatURL_extension_normalisation "source" "acme" "site" "docs/page" "html"
      (by decide) (by decide)).2.2,
   (formatURL_extension_normalisation "source" "acme" "site" "docs/page" "html"
      (by decide) (by decide)).1 "/docs/page"⟩

end DaLive
